/-
  Verification development for the codoc-webapp repository.

  Shallow embedding of:
  - src/app/api/groq/groq-client.ts        (credential-rotating LLM client)
  - src/app/api/github/tree/route.ts       (repository tree endpoint)
  - src/app/api/github/content/route.ts    (file content endpoint)
  - src/app/api/groq/generate-content route (per-chapter content endpoint)
  - src/app/components/DocumentationLayout.tsx (generateChapterContent)

  JavaScript strings are modelled by Lean String; byte buffers by List Nat
  (each element < 256); upstream HTTP responses by explicit oracle values
  passed to the modelled handlers, which also return the list of outbound
  requests they issued so that "no network call" claims are statable.
-/
import Mathlib

set_option maxHeartbeats 1000000

namespace Codoc

/-! ## JavaScript string primitives -/

/-- Split a character list at every occurrence of `sep`, keeping empty
pieces, as JavaScript `String.prototype.split` does for a one-character
separator. -/
def splitCharList (sep : Char) : List Char → List (List Char)
  | [] => [[]]
  | c :: cs =>
    let r := splitCharList sep cs
    if c = sep then [] :: r
    else
      match r with
      | [] => [[c]]
      | h :: t => (c :: h) :: t

/-- JavaScript `s.split(sep)` for a one-character separator. -/
def jsSplit (sep : Char) (s : String) : List String :=
  (splitCharList sep s.data).map (fun l => String.mk l)

/-- Does `needle` occur at the start of `hay`? -/
def listStarts : List Char → List Char → Bool
  | [], _ => true
  | _ :: _, [] => false
  | a :: as, b :: bs => a = b && listStarts as bs

/-- Does `needle` occur anywhere inside `hay`? -/
def occursIn (needle hay : List Char) : Bool :=
  match hay with
  | [] => needle.isEmpty
  | _ :: t => listStarts needle hay || occursIn needle t

/-- JavaScript `s.includes(sub)`. -/
def jsIncludes (s sub : String) : Bool :=
  occursIn sub.data s.data

/-- JavaScript truthiness of an optional string field: absent and the
empty string are falsy. -/
def truthyStr : Option String → Bool
  | none => false
  | some s => s ≠ ""

/-- JavaScript `s.toLowerCase()`, modelled character-wise (the paths and
extensions involved are ASCII). -/
def jsToLower (s : String) : String :=
  String.mk (s.data.map Char.toLower)

/-! ## Base64 (Node `Buffer` semantics)

`Buffer.from(s, "base64")` ignores every character outside the base64
alphabet (including `=` padding and embedded newlines) and decodes the
remaining sextets in groups of 4, with a trailing group of 2 or 3
characters contributing 1 or 2 bytes and a lone trailing character
dropped.  `buf.toString("base64")` produces canonical padded output. -/

/-- The base64 alphabet in index order. -/
def b64Alphabet : List Char :=
  "ABCDEFGHIJKLMNOPQRSTUVWXYZabcdefghijklmnopqrstuvwxyz0123456789+/".data

/-- Character for a sextet value. -/
def charOfSextet (v : Nat) : Char :=
  b64Alphabet.getD v 'A'

/-- Sextet value of an alphabet character. -/
def sextetOfChar (c : Char) : Nat :=
  (b64Alphabet.indexOf c)

/-- Membership in the base64 alphabet. -/
def isB64Char (c : Char) : Bool :=
  b64Alphabet.contains c

/-- Canonical base64 encoding of a byte list, as `Buffer.toString("base64")`:
three bytes become four characters, a trailing byte or byte pair is padded
with `=`. -/
def b64EncodeChars : List Nat → List Char
  | [] => []
  | [b1] =>
    [charOfSextet (b1 / 4), charOfSextet (b1 % 4 * 16), '=', '=']
  | [b1, b2] =>
    [charOfSextet (b1 / 4), charOfSextet (b1 % 4 * 16 + b2 / 16),
     charOfSextet (b2 % 16 * 4), '=']
  | b1 :: b2 :: b3 :: rest =>
    charOfSextet (b1 / 4) ::
    charOfSextet (b1 % 4 * 16 + b2 / 16) ::
    charOfSextet (b2 % 16 * 4 + b3 / 64) ::
    charOfSextet (b3 % 64) ::
    b64EncodeChars rest

/-- String form of the canonical base64 encoding. -/
def b64Encode (bs : List Nat) : String :=
  String.mk (b64EncodeChars bs)

/-- Decode a list of alphabet characters (invalid characters already
filtered out) into bytes, four sextets to three bytes, with forgiving
handling of a short trailing group. -/
def b64DecodeSextets : List Char → List Nat
  | c1 :: c2 :: c3 :: c4 :: rest =>
    let v1 := sextetOfChar c1
    let v2 := sextetOfChar c2
    let v3 := sextetOfChar c3
    let v4 := sextetOfChar c4
    (v1 * 4 + v2 / 16) :: (v2 % 16 * 16 + v3 / 4) :: (v3 % 4 * 64 + v4) ::
      b64DecodeSextets rest
  | [c1, c2, c3] =>
    let v1 := sextetOfChar c1
    let v2 := sextetOfChar c2
    let v3 := sextetOfChar c3
    [v1 * 4 + v2 / 16, v2 % 16 * 16 + v3 / 4]
  | [c1, c2] =>
    let v1 := sextetOfChar c1
    let v2 := sextetOfChar c2
    [v1 * 4 + v2 / 16]
  | _ => []

/-- `Buffer.from(s, "base64")`: filter to alphabet characters, then decode. -/
def b64DecodeBytes (s : String) : List Nat :=
  b64DecodeSextets (s.data.filter isB64Char)

/-! ## UTF-8 normalization

`buf.toString("utf-8")` decodes bytes as UTF-8 with U+FFFD replacement of
invalid sequences; serializing the resulting string back to bytes yields
`utf8Normalize` of the original bytes.  On valid UTF-8 input this is the
identity. -/

/-- The UTF-8 encoding of U+FFFD. -/
def replBytes : List Nat := [0xEF, 0xBF, 0xBD]

/-- Is `b` a UTF-8 continuation byte? -/
def isCont (b : Nat) : Bool :=
  0x80 ≤ b && b ≤ 0xBF

/-- Byte-level effect of decoding with replacement and re-encoding,
with a fuel parameter (one unit per decoded unit; each step consumes at
least one byte, so fuel equal to the byte count never runs out). -/
def utf8Fuel : Nat → List Nat → List Nat
  | _, [] => []
  | 0, l => l
  | fuel + 1, b :: rest =>
    if b < 0x80 then b :: utf8Fuel fuel rest
    else if 0xC2 ≤ b && b ≤ 0xDF then
      match rest with
      | b2 :: rest2 =>
        if isCont b2 then b :: b2 :: utf8Fuel fuel rest2
        else replBytes ++ utf8Fuel fuel rest
      | [] => replBytes
    else if 0xE0 ≤ b && b ≤ 0xEF then
      match rest with
      | b2 :: rest2 =>
        let lo2 : Nat := if b = 0xE0 then 0xA0 else 0x80
        let hi2 : Nat := if b = 0xED then 0x9F else 0xBF
        if lo2 ≤ b2 && b2 ≤ hi2 then
          match rest2 with
          | b3 :: rest3 =>
            if isCont b3 then b :: b2 :: b3 :: utf8Fuel fuel rest3
            else replBytes ++ utf8Fuel fuel rest2
          | [] => replBytes
        else replBytes ++ utf8Fuel fuel rest
      | [] => replBytes
    else if 0xF0 ≤ b && b ≤ 0xF4 then
      match rest with
      | b2 :: rest2 =>
        let lo2 : Nat := if b = 0xF0 then 0x90 else 0x80
        let hi2 : Nat := if b = 0xF4 then 0x8F else 0xBF
        if lo2 ≤ b2 && b2 ≤ hi2 then
          match rest2 with
          | b3 :: rest3 =>
            if isCont b3 then
              match rest3 with
              | b4 :: rest4 =>
                if isCont b4 then b :: b2 :: b3 :: b4 :: utf8Fuel fuel rest4
                else replBytes ++ utf8Fuel fuel rest3
              | [] => replBytes
            else replBytes ++ utf8Fuel fuel rest2
          | [] => replBytes
        else replBytes ++ utf8Fuel fuel rest
      | [] => replBytes
    else replBytes ++ utf8Fuel fuel rest

/-- `buf.toString("utf-8")` re-serialized: decode with replacement then
re-encode.  On valid UTF-8 input this is the identity. -/
def utf8Normalize (bs : List Nat) : List Nat :=
  utf8Fuel bs.length bs

/-! ## Groq client (src/app/api/groq/groq-client.ts)

The module-level mutable variables `currentApiKeyIndex` and
`allKeysExhausted` become an explicit `GroqState` threaded through the
functions.  `getApiKeys()` reads fixed environment variables, so the key
list is a parameter.  The network is an oracle `Nat → GroqFetch` indexed
by the attempt number; the model additionally returns the list of API
keys actually used, one entry per outbound request. -/

/-- `currentApiKeyIndex` and `allKeysExhausted`. -/
structure GroqState where
  idx : Nat
  exhausted : Bool
  deriving DecidableEq, Repr

/-- Outcome of one `fetch` to the Groq endpoint: a response with a status
and the optional `choices[0].message.content`, or a thrown error. -/
inductive GroqFetch where
  | resp (status : Nat) (content : Option String)
  | thrown (msg : String)
  deriving DecidableEq, Repr

/-- The `GroqResponse` result shape. -/
structure GroqResponse where
  success : Bool
  content : Option String
  error : Option String
  deriving DecidableEq, Repr

/-- JavaScript `response.ok`: status in the 2xx range. -/
def respOk (status : Nat) : Bool :=
  200 ≤ status && status < 300

/-- `getCurrentApiKey`: `null` when no keys are configured; resets the
index (and marks exhaustion) when it has run past the end of the list. -/
def getCurrentApiKey (keys : List String) (st : GroqState) :
    Option String × GroqState :=
  if keys.length = 0 then (none, st)
  else
    let st' := if st.idx ≥ keys.length then { idx := 0, exhausted := true } else st
    (some (keys.getD st'.idx ""), st')

/-- `switchToNextKey`: advance the index; wrap to 0 and report exhaustion
when it passes the end of the key list. -/
def switchToNextKey (keys : List String) (st : GroqState) :
    Bool × GroqState :=
  let idx' := st.idx + 1
  if idx' ≥ keys.length then (false, { idx := 0, exhausted := true })
  else (true, { st with idx := idx' })

/-- Error message constants from the client. -/
def noKeysMsg : String := "No GROQ API keys configured"

/-- Message returned when every key has been rate limited. -/
def exhaustedMsg : String :=
  "All API keys exhausted due to rate limiting. Please try again later."

/-- `attemptRequest`: one attempt plus the recursive retry on 429.  The
source recursion is bounded only by the finite key list; `fuel` makes it
structural and is set to more than the key count by `sendToGroq`, which
the theorems show is never consumed. -/
def attemptRequest (keys : List String) (oracle : Nat → GroqFetch) :
    Nat → Nat → GroqState → GroqResponse × GroqState × List String
  | 0, _, st => (⟨false, none, some "fuel exhausted"⟩, st, [])
  | fuel + 1, n, st =>
    match getCurrentApiKey keys st with
    | (none, st') => (⟨false, none, some noKeysMsg⟩, st', [])
    | (some apiKey, st') =>
      if apiKey = "" then (⟨false, none, some noKeysMsg⟩, st', [])
      else
        match oracle n with
        | .thrown msg => (⟨false, none, some msg⟩, st', [apiKey])
        | .resp status content =>
          if status = 429 && !st'.exhausted then
            match switchToNextKey keys st' with
            | (true, st'') =>
              let (res, st''', ks) := attemptRequest keys oracle fuel (n + 1) st''
              (res, st''', apiKey :: ks)
            | (false, st'') =>
              (⟨false, none, some exhaustedMsg⟩, st'', [apiKey])
          else if !respOk status then
            (⟨false, none, some ("Groq API error: " ++ toString status)⟩, st',
              [apiKey])
          else
            match content with
            | none => (⟨false, none, some "No content in Groq response"⟩, st', [apiKey])
            | some c => (⟨true, some c, none⟩, st', [apiKey])

/-- `sendToGroq`: reset the exhausted flag, then run `attemptRequest`.
Returns the response, the final rotation state, and the keys used. -/
def sendToGroq (keys : List String) (oracle : Nat → GroqFetch)
    (st : GroqState) : GroqResponse × GroqState × List String :=
  attemptRequest keys oracle (keys.length + 1) 0 { st with exhausted := false }

/-! ## GitHub tree route (src/app/api/github/tree/route.ts) -/

/-- The `type` field of a `GitHubTreeItem`. -/
inductive GitType where
  | blob
  | tree
  | commit
  deriving DecidableEq, Repr

/-- One entry of the flat recursive tree listing. -/
structure GitHubTreeItem where
  path : String
  type : GitType
  sha : String
  size : Option Nat
  deriving DecidableEq, Repr

/-- Three-way string comparison as an integer, modelling
`a.localeCompare(b)` by code-point order. -/
def strCmp (a b : String) : Int :=
  match compare a b with
  | .lt => -1
  | .eq => 0
  | .gt => 1

/-- Path depth as computed in the source: `path.split("/").length`. -/
def pathDepth (p : String) : Nat :=
  (jsSplit '/' p).length

/-- The comparator passed to `sort` in `buildFileTree`: depth ascending,
then tree entries before non-tree entries, then path order. -/
def itemCmp (a b : GitHubTreeItem) : Int :=
  let aDepth := pathDepth a.path
  let bDepth := pathDepth b.path
  if aDepth ≠ bDepth then (aDepth : Int) - (bDepth : Int)
  else if a.type = .tree ∧ b.type ≠ .tree then -1
  else if a.type ≠ .tree ∧ b.type = .tree then 1
  else strCmp a.path b.path

/-- Stable insertion of `x` after every element the comparator puts
strictly before it. -/
def insertCmp {α : Type} (c : α → α → Int) (x : α) : List α → List α
  | [] => [x]
  | y :: ys => if c y x < 0 then y :: insertCmp c x ys else x :: y :: ys

/-- Stable sort by a three-way comparator, the result JavaScript
`Array.prototype.sort` produces for a consistent comparator. -/
def sortCmp {α : Type} (c : α → α → Int) : List α → List α
  | [] => []
  | x :: xs => insertCmp c x (sortCmp c xs)

/-- The `type` field of a `FileNode`. -/
inductive NodeType where
  | file
  | folder
  deriving DecidableEq, Repr

/-- A node of the built hierarchy. -/
inductive FileNode where
  | mk (id name : String) (type : NodeType) (path : String)
      (children : Option (List FileNode))
  deriving Repr

/-- Last path segment: `pathParts[pathParts.length - 1]`. -/
def lastSegment (p : String) : String :=
  (jsSplit '/' p).getLastD ""

/-- Parent path: `pathParts.slice(0, -1).join("/")`. -/
def parentPathOf (p : String) : String :=
  String.intercalate "/" (jsSplit '/' p).dropLast

/-- First-match association lookup, the behaviour of `Map.get` when the
most recent `Map.set` for a path is consed to the front. -/
def alookup (p : String) : List (String × Nat) → Option Nat
  | [] => none
  | (q, j) :: rest => if q = p then some j else alookup p rest

/-- Intermediate state of the `buildFileTree` loop over the sorted items,
recording node objects by their index in the sorted list: the root list,
the parent/child attachment pairs in push order, and the path-keyed node
map (most recent first). -/
structure TreeBuildState where
  root : List Nat
  child : List (Nat × Nat)
  nmap : List (String × Nat)
  deriving DecidableEq, Repr

/-- Is the sorted item at index `j` a tree (so its node carries a
`children` array)? -/
def treeAt (sorted : List GitHubTreeItem) (j : Nat) : Bool :=
  match sorted.get? j with
  | some it => it.type = .tree
  | none => false

/-- One iteration of the `for (const item of sortedItems)` loop, acting on
the item at index `i`: register the node in the map, then attach it to the
root list or to its parent when the parent exists and has a children
array. -/
def buildStep (sorted : List GitHubTreeItem) (st : TreeBuildState) (i : Nat) :
    TreeBuildState :=
  match sorted.get? i with
  | none => st
  | some it =>
    let pp := parentPathOf it.path
    let nmap' := (it.path, i) :: st.nmap
    if pp = "" then { st with root := st.root ++ [i], nmap := nmap' }
    else
      match alookup pp nmap' with
      | some j =>
        if treeAt sorted j then
          { st with child := st.child ++ [(j, i)], nmap := nmap' }
        else { st with nmap := nmap' }
      | none => { st with nmap := nmap' }

/-- The loop of `buildFileTree` over all indices of the sorted list. -/
def buildState (sorted : List GitHubTreeItem) : TreeBuildState :=
  (List.range sorted.length).foldl (buildStep sorted) ⟨[], [], []⟩

/-- Materialize the `FileNode` for the sorted item at index `i`, reading
children through the attachment pairs; `fuel` bounds nesting depth and is
set to the item count, which exceeds any attachment chain (every child
index is larger than its parent index). -/
def mkNode (sorted : List GitHubTreeItem) (child : List (Nat × Nat)) :
    Nat → Nat → FileNode
  | 0, _ => FileNode.mk "" "" .file "" none
  | fuel + 1, i =>
    match sorted.get? i with
    | none => FileNode.mk "" "" .file "" none
    | some it =>
      let kids := (child.filter (fun pr => pr.1 = i)).map (fun pr => pr.2)
      FileNode.mk it.sha (lastSegment it.path)
        (if it.type = .tree then .folder else .file) it.path
        (if it.type = .tree then
          some (kids.map (fun j => mkNode sorted child fuel j))
         else none)

/-- `buildFileTree`: sort the flat entries, run the attachment loop, and
read back the root forest. -/
def buildFileTree (items : List GitHubTreeItem) : List FileNode :=
  let sorted := sortCmp itemCmp items
  let st := buildState sorted
  st.root.map (fun i => mkNode sorted st.child sorted.length i)

/-- A URL string together with its WHATWG parse: `new URL(url)` either
throws or yields a hostname and a pathname. -/
inductive UrlParse where
  | fail
  | ok (hostname pathname : String)
  deriving DecidableEq, Repr

/-- A URL string as received in a request body. -/
structure UrlString where
  raw : String
  parsed : UrlParse
  deriving DecidableEq, Repr

/-- `parseGitHubUrl` (identical in the tree and content routes): `null`
when parsing throws, when the hostname does not contain "github.com", or
when the pathname has fewer than two non-empty segments. -/
def parseGitHubUrl (u : UrlString) : Option (String × String) :=
  match u.parsed with
  | .fail => none
  | .ok hostname pathname =>
    if !jsIncludes hostname "github.com" then none
    else
      let parts := (jsSplit '/' pathname).filter (fun s => s ≠ "")
      if parts.length < 2 then none
      else some (parts.getD 0 "", parts.getD 1 "")

/-- JavaScript truthiness of the optional `url` body field. -/
def truthyUrl : Option UrlString → Bool
  | none => false
  | some u => u.raw ≠ ""

/-- Upstream data consumed from `GET /repos/{owner}/{repo}`. -/
structure RepoMetaData where
  defaultBranch : String
  deriving DecidableEq, Repr

/-- Upstream data consumed from the branch endpoint. -/
structure BranchMetaData where
  treeSha : String
  deriving DecidableEq, Repr

/-- Upstream data consumed from the recursive tree endpoint. -/
structure TreeListingData where
  tree : List GitHubTreeItem
  truncated : Bool
  deriving DecidableEq, Repr

/-- The three upstream responses a tree fetch may consume, each a status
plus parsed body. -/
structure TreeEnv where
  repoMeta : Nat × RepoMetaData
  branchMeta : Nat × BranchMetaData
  treeListing : Nat × TreeListingData
  deriving DecidableEq, Repr

/-- Response of the tree endpoint. -/
structure TreeResult where
  status : Nat
  error : Option String
  owner : Option String
  repo : Option String
  branch : Option String
  tree : Option (List FileNode)
  truncated : Option Bool
  deriving Repr

/-- Tags for the outbound requests a tree fetch can issue, in order. -/
inductive TreeReq where
  | repoMeta
  | branchMeta
  | treeListing
  deriving DecidableEq, Repr

/-- Shorthand for an error-only tree response. -/
def treeErr (status : Nat) (msg : String) : TreeResult :=
  ⟨status, some msg, none, none, none, none, none⟩

/-- The tree route `POST` handler: body checks, URL parse, the three
upstream calls with their error handling (thrown errors become 500s via
the surrounding `catch`), then `buildFileTree`.  Returns the response and
the list of outbound requests issued. -/
def treePOST (url : Option UrlString) (env : TreeEnv) :
    TreeResult × List TreeReq :=
  if !truthyUrl url then (treeErr 400 "GitHub URL is required", [])
  else
    match parseGitHubUrl (url.getD ⟨"", .fail⟩) with
    | none => (treeErr 400 "Invalid GitHub URL", [])
    | some (owner, repo) =>
      let (rStatus, rData) := env.repoMeta
      if !respOk rStatus then
        if rStatus = 404 then
          (treeErr 404 "Repository not found", [.repoMeta])
        else
          (treeErr 500 ("GitHub API error: " ++ toString rStatus), [.repoMeta])
      else
        let defaultBranch := rData.defaultBranch
        let (bStatus, _bData) := env.branchMeta
        if !respOk bStatus then
          (treeErr 500 ("Failed to get branch info: " ++ toString bStatus),
            [.repoMeta, .branchMeta])
        else
          let (tStatus, tData) := env.treeListing
          if !respOk tStatus then
            (treeErr 500 ("Failed to get tree: " ++ toString tStatus),
              [.repoMeta, .branchMeta, .treeListing])
          else
            (⟨200, none, some owner, some repo, some defaultBranch,
              some (buildFileTree tData.tree), some tData.truncated⟩,
              [.repoMeta, .branchMeta, .treeListing])

/-! ## GitHub content route (src/app/api/github/content/route.ts) -/

/-- Upstream data consumed from `GET /repos/{o}/{r}/contents/{path}`:
the entry type, metadata, and the base64 `content` payload. -/
structure ContentData where
  ctype : String
  name : String
  path : String
  size : Nat
  sha : String
  content : String
  deriving DecidableEq, Repr

/-- `path.split(".").pop()?.toLowerCase() || ""`. -/
def jsExtension (path : String) : String :=
  let e := jsToLower ((jsSplit '.' path).getLastD "")
  if e = "" then "" else e

/-- The media extension allowlists of the content route. -/
def imageExtensions : List String :=
  ["png", "jpg", "jpeg", "gif", "svg", "webp", "ico", "bmp"]

/-- Video extensions. -/
def videoExtensions : List String := ["mp4", "webm", "mov", "avi", "mkv"]

/-- Pdf extensions. -/
def pdfExtensions : List String := ["pdf"]

/-- Response of the content endpoint; the decoded text body is kept at
byte level (`Buffer.from(data.content, "base64").toString("utf-8")`
re-serialized to UTF-8 bytes). -/
structure ContentResult where
  status : Nat
  error : Option String
  name : Option String
  path : Option String
  size : Option Nat
  extension : Option String
  sha : Option String
  content : Option (List Nat)
  isMedia : Option Bool
  mediaType : Option String
  rawUrl : Option String
  deriving DecidableEq, Repr

/-- Shorthand for an error-only content response. -/
def contentErr (status : Nat) (msg : String) : ContentResult :=
  ⟨status, some msg, none, none, none, none, none, none, none, none, none⟩

/-- The content route `POST` handler: body checks, URL parse, the single
upstream call, directory rejection, extension-based media classification,
and base64 decoding for text files.  Returns the response and the number
of outbound GitHub requests issued. -/
def contentPOST (url : Option UrlString) (path : Option String)
    (branch : Option String) (env : Nat × ContentData) :
    ContentResult × Nat :=
  if !truthyUrl url || !truthyStr path then
    (contentErr 400 "GitHub URL and file path are required", 0)
  else
    match parseGitHubUrl (url.getD ⟨"", .fail⟩) with
    | none => (contentErr 400 "Invalid GitHub URL", 0)
    | some (owner, repo) =>
      let ref := if truthyStr branch then branch.getD "" else "main"
      let p := path.getD ""
      let (status, data) := env
      if !respOk status then
        if status = 404 then (contentErr 404 "File not found", 1)
        else (contentErr 500 ("GitHub API error: " ++ toString status), 1)
      else if data.ctype ≠ "file" then
        (contentErr 400 "Path is not a file", 1)
      else
        let extension := jsExtension p
        let isImage := imageExtensions.contains extension
        let isVideo := videoExtensions.contains extension
        let isPdf := pdfExtensions.contains extension
        let isMedia := isImage || isVideo || isPdf
        if isMedia then
          let rawUrl := "https://raw.githubusercontent.com/" ++ owner ++ "/" ++
            repo ++ "/" ++ ref ++ "/" ++ p
          (⟨200, none, some data.name, some data.path, some data.size,
            some extension, some data.sha, none, some true,
            some (if isImage then "image" else if isVideo then "video" else "pdf"),
            some rawUrl⟩, 1)
        else
          let content := utf8Normalize (b64DecodeBytes data.content)
          (⟨200, none, some data.name, some data.path, some data.size,
            some extension, some data.sha, some content, some false,
            none, none⟩, 1)

/-! ## DocumentationLayout: generateChapterContent
(src/app/components/DocumentationLayout.tsx, lines 353-411) -/

/-- A chapter descriptor as sent to the content generator. -/
structure Chapter where
  id : String
  title : String
  description : Option String
  deriving DecidableEq, Repr

/-- The `activeContent` view state relevant to chapter display. -/
structure ActiveContent where
  chapterId : String
  chapterContent : Option String
  isLoading : Bool
  error : Option String
  deriving DecidableEq, Repr

/-- `docState.generatedContent[chapter.id]` with JavaScript truthiness:
a present but empty cached string is falsy. -/
def cacheHit (cache : List (String × String)) (id : String) : Option String :=
  match cache.lookup id with
  | some v => if v = "" then none else some v
  | none => none

/-- Outcome of the `fetch("/api/groq/generate-content")` call made on a
cache miss: `some content` when the response is ok, `none` for a failure
(non-ok response or thrown error). -/
def genFetchContent (resp : Option String) : Option String := resp

/-- `generateChapterContent`: serve a truthy cache entry without any
request; otherwise issue one generate-content request and cache a
successful result.  Returns the new `activeContent`, the new cache, and
the number of generate-content requests issued. -/
def generateChapterContent (cache : List (String × String)) (chapter : Chapter)
    (fetchResult : Option String) :
    ActiveContent × List (String × String) × Nat :=
  match cacheHit cache chapter.id with
  | some cached => (⟨chapter.id, some cached, false, none⟩, cache, 0)
  | none =>
    match genFetchContent fetchResult with
    | some content =>
      (⟨chapter.id, some content, false, none⟩,
        (chapter.id, content) :: cache, 1)
    | none =>
      (⟨chapter.id, none, false, some "Failed to generate content"⟩, cache, 1)

/-! ## Generate-content route (src/app/api/groq/generate-content/route.ts,
provided as src/unnamed/part_000) -/

/-- A `{path, content}` pair of prompt context. -/
structure FileInfo where
  path : String
  content : String
  deriving DecidableEq, Repr

/-- JavaScript truthiness of the optional `chapter` body field. -/
def truthyChapter : Option Chapter → Bool
  | none => false
  | some _ => true

/-- `f.content.slice(0, 3000)`. -/
def slice3000 (s : String) : String :=
  String.mk (s.data.take 3000)

/-- One file rendered for the prompt:
"### {path}\n```\n{content.slice(0,3000)}\n```". -/
def renderFile (f : FileInfo) : String :=
  "### " ++ f.path ++ "\n```\n" ++ slice3000 f.content ++ "\n```"

/-- The fixed fallback context text. -/
def noFilesMsg : String := "No specific files provided."

/-- `files?.map(...).join("\n\n") || "No specific files provided."`:
an absent array, and an empty join result, both fall back to the fixed
text. -/
def fileContext (files : Option (List FileInfo)) : String :=
  match files with
  | none => noFilesMsg
  | some fs =>
    let joined := String.intercalate "\n\n" (fs.map renderFile)
    if joined = "" then noFilesMsg else joined

/-- The user prompt built by the route. -/
def genPrompt (repoName : String) (chapter : Chapter)
    (files : Option (List FileInfo)) : String :=
  "Generate detailed documentation content for the chapter \"" ++
  chapter.title ++ "\" of the \"" ++ repoName ++ "\" project.\n\n" ++
  "        Chapter description: " ++
  (match chapter.description with
   | some d => if d = "" then "No description provided" else d
   | none => "No description provided") ++ "\n\n" ++
  "        Relevant source code files:\n\n        " ++
  fileContext files ++ "\n\n" ++
  "        Write comprehensive documentation in Markdown format that:\n" ++
  "        1. Explains concepts clearly for developers\n" ++
  "        2. Includes code examples where relevant\n" ++
  "        3. Provides step-by-step instructions when applicable\n" ++
  "        4. Uses proper markdown formatting (headers, code blocks, lists)\n" ++
  "        5. Is practical and actionable\n\n" ++
  "        Write the documentation content directly, starting with a brief introduction to this section.\n" ++
  "        Do NOT include the chapter title as a header (it will be added separately).\n" ++
  "        Write in English."

/-- Response of the generate-content endpoint. -/
structure GenResult where
  status : Nat
  error : Option String
  content : Option String
  chapterId : Option String
  deriving DecidableEq, Repr

/-- The generate-content `POST` handler: 400 when `repoName` or `chapter`
is falsy, otherwise one `sendToGroq` call whose result (passed in as
`llm`) yields a 500 on failure and a 200 with the content and chapter id
on success.  Returns the response and the list of user prompts sent to
the LLM client. -/
def generateContentPOST (repoName : Option String) (chapter : Option Chapter)
    (files : Option (List FileInfo)) (llm : GroqResponse) :
    GenResult × List String :=
  if !truthyStr repoName || !truthyChapter chapter then
    (⟨400, some "Repository name and chapter are required", none, none⟩, [])
  else
    let ch := chapter.getD ⟨"", "", none⟩
    let prompt := genPrompt (repoName.getD "") ch files
    if llm.success then
      (⟨200, none, llm.content, some ch.id⟩, [prompt])
    else
      (⟨500, llm.error, none, none⟩, [prompt])

/-! ## Helper lemmas -/

/-- Splitting on a character that does not occur returns the whole list. -/
theorem splitCharList_not_mem (sep : Char) (l : List Char)
    (h : l.contains sep = false) : splitCharList sep l = [l] := by
  induction l with
  | nil => rfl
  | cons c cs ih =>
    simp only [List.contains_cons, Bool.or_eq_false_iff, beq_iff_eq] at h
    obtain ⟨h1, h2⟩ := h
    have hne : ¬c = sep := by
      intro hc
      exact absurd hc.symm (by simpa using h1)
    simp [splitCharList, ih h2, hne]

/-- A string with no separator splits to the singleton of itself. -/
theorem jsSplit_not_contains (sep : Char) (s : String)
    (h : s.data.contains sep = false) : jsSplit sep s = [s] := by
  unfold jsSplit
  rw [splitCharList_not_mem sep s.data h]
  cases s
  rfl

/-- On a path with no dot, the extension computed by the content route is
the lowercased path itself. -/
theorem jsExtension_no_dot (p : String) (h : p.data.contains '.' = false) :
    jsExtension p = jsToLower p := by
  unfold jsExtension
  rw [jsSplit_not_contains '.' p h]
  simp only [List.getLastD]
  by_cases he : jsToLower p = ""
  · simp [he]
  · simp [he]

/-- Insertion by a comparator preserves membership. -/
theorem mem_insertCmp {α : Type} (c : α → α → Int) (x y : α) (l : List α) :
    y ∈ insertCmp c x l ↔ y = x ∨ y ∈ l := by
  induction l with
  | nil => simp [insertCmp]
  | cons z zs ih =>
    by_cases h : c z x < 0 <;> simp [insertCmp, h, ih] <;> tauto

/-- The comparator sort is a permutation up to membership. -/
theorem mem_sortCmp {α : Type} (c : α → α → Int) (x : α) (l : List α) :
    x ∈ sortCmp c l ↔ x ∈ l := by
  induction l with
  | nil => simp [sortCmp]
  | cons z zs ih => simp [sortCmp, mem_insertCmp, ih]

/-- A successful association lookup returns a member of the list. -/
theorem alookup_mem (p : String) (l : List (String × Nat)) (j : Nat)
    (h : alookup p l = some j) : (p, j) ∈ l := by
  induction l with
  | nil => simp [alookup] at h
  | cons q rest ih =>
    obtain ⟨qp, qj⟩ := q
    simp only [alookup] at h
    by_cases hq : qp = p
    · subst hq
      rw [if_pos rfl] at h
      cases h
      exact List.mem_cons_self _ _
    · rw [if_neg hq] at h
      exact List.mem_cons_of_mem _ (ih h)

/-- Every sextet value survives the alphabet round trip. -/
theorem sextetOfChar_charOfSextet : ∀ v, v < 64 →
    sextetOfChar (charOfSextet v) = v := by decide

/-- Every alphabet character is accepted by the decode filter. -/
theorem isB64Char_charOfSextet : ∀ v, v < 64 →
    isB64Char (charOfSextet v) = true := by decide

/-- Padding is dropped by the decode filter. -/
theorem isB64Char_pad : isB64Char '=' = false := by decide

/-- Decoding a canonical encoding recovers the original bytes. -/
theorem b64DecodeSextets_encode (bs : List Nat) (hb : ∀ b ∈ bs, b < 256) :
    b64DecodeSextets ((b64EncodeChars bs).filter isB64Char) = bs := by
  induction bs using b64EncodeChars.induct with
  | case1 => rfl
  | case2 b1 =>
    have h1 : b1 < 256 := hb b1 (by simp)
    simp only [b64EncodeChars, List.filter_cons,
      isB64Char_charOfSextet (b1 / 4) (by omega),
      isB64Char_charOfSextet (b1 % 4 * 16) (by omega), isB64Char_pad,
      if_true, if_false, List.filter_nil]
    simp only [b64DecodeSextets,
      sextetOfChar_charOfSextet (b1 / 4) (by omega),
      sextetOfChar_charOfSextet (b1 % 4 * 16) (by omega)]
    simp only [List.cons.injEq, and_true]
    omega
  | case3 b1 b2 =>
    have h1 : b1 < 256 := hb b1 (by simp)
    have h2 : b2 < 256 := hb b2 (by simp)
    simp only [b64EncodeChars, List.filter_cons,
      isB64Char_charOfSextet (b1 / 4) (by omega),
      isB64Char_charOfSextet (b1 % 4 * 16 + b2 / 16) (by omega),
      isB64Char_charOfSextet (b2 % 16 * 4) (by omega), isB64Char_pad,
      if_true, if_false, List.filter_nil]
    simp only [b64DecodeSextets,
      sextetOfChar_charOfSextet (b1 / 4) (by omega),
      sextetOfChar_charOfSextet (b1 % 4 * 16 + b2 / 16) (by omega),
      sextetOfChar_charOfSextet (b2 % 16 * 4) (by omega)]
    simp only [List.cons.injEq, and_true]
    constructor <;> omega
  | case4 b1 b2 b3 rest ih =>
    have h1 : b1 < 256 := hb b1 (by simp)
    have h2 : b2 < 256 := hb b2 (by simp)
    have h3 : b3 < 256 := hb b3 (by simp)
    have hrest : ∀ b ∈ rest, b < 256 := by
      intro b hbmem
      exact hb b (by simp [hbmem])
    simp only [b64EncodeChars, List.filter_cons,
      isB64Char_charOfSextet (b1 / 4) (by omega),
      isB64Char_charOfSextet (b1 % 4 * 16 + b2 / 16) (by omega),
      isB64Char_charOfSextet (b2 % 16 * 4 + b3 / 64) (by omega),
      isB64Char_charOfSextet (b3 % 64) (by omega), if_true]
    simp only [b64DecodeSextets,
      sextetOfChar_charOfSextet (b1 / 4) (by omega),
      sextetOfChar_charOfSextet (b1 % 4 * 16 + b2 / 16) (by omega),
      sextetOfChar_charOfSextet (b2 % 16 * 4 + b3 / 64) (by omega),
      sextetOfChar_charOfSextet (b3 % 64) (by omega)]
    simp only [List.cons.injEq]
    refine ⟨by omega, by omega, by omega, ih hrest⟩

/-- Decoding the canonical base64 string of a byte list recovers it. -/
theorem b64DecodeBytes_encode (bs : List Nat) (hb : ∀ b ∈ bs, b < 256) :
    b64DecodeBytes (b64Encode bs) = bs := by
  unfold b64DecodeBytes b64Encode
  exact b64DecodeSextets_encode bs hb

/-- Under all-429 responses, the retry loop starting at index `k` walks the
key list from `k` to the end, one attempt per key, and stops exhausted. -/
theorem attemptRequest_all429 (keys : List String) (oracle : Nat → GroqFetch)
    (hne : ∀ s ∈ keys, s ≠ "")
    (h429 : ∀ n, ∃ c, oracle n = .resp 429 c) :
    ∀ fuel n k, k < keys.length → keys.length - k ≤ fuel →
      attemptRequest keys oracle fuel n ⟨k, false⟩ =
        (⟨false, none, some exhaustedMsg⟩, ⟨0, true⟩, keys.drop k) := by
  intro fuel
  induction fuel with
  | zero =>
    intro n k hk hfuel
    omega
  | succ f ih =>
    intro n k hk hfuel
    obtain ⟨c, hc⟩ := h429 n
    have hkey : keys.getD k "" ∈ keys := by
      rw [List.getD_eq_getElem keys "" hk]
      exact List.getElem_mem hk
    have hkeyne : ¬keys.getD k "" = "" := hne _ hkey
    have hlen0 : ¬keys.length = 0 := by omega
    have hidx : ¬k ≥ keys.length := by omega
    simp only [attemptRequest, getCurrentApiKey, hlen0, if_false, hidx,
      if_neg hidx, hkeyne, hc]
    by_cases hend : k + 1 ≥ keys.length
    · have hkeq : k = keys.length - 1 := by omega
      simp only [switchToNextKey, hend, if_pos hend]
      have hdrop : keys.drop k = [keys.getD k ""] := by
        rw [List.getD_eq_getElem keys "" hk]
        rw [List.drop_eq_getElem_cons hk]
        have : keys.drop (k + 1) = [] := List.drop_eq_nil_of_le (by omega)
        rw [this]
      simp [hdrop]
    · have hlt : k + 1 < keys.length := by omega
      simp only [switchToNextKey, if_neg hend]
      have hrec := ih (n + 1) (k + 1) hlt (by omega)
      simp only [hrec]
      have hdrop : keys.drop k = keys.getD k "" :: keys.drop (k + 1) := by
        rw [List.getD_eq_getElem keys "" hk]
        exact List.drop_eq_getElem_cons hk
      simp [hdrop]

/-- Invariant of the `buildFileTree` loop state: the node map records
items by index and path, every root index is a top-level item, and every
attachment pair joins a child to a tree item whose path is the parent
path of the child. -/
def TreeInv (sorted : List GitHubTreeItem) (st : TreeBuildState) : Prop :=
  (∀ pj ∈ st.nmap, ∃ it, sorted.get? (Prod.snd pj) = some it ∧
      it.path = Prod.fst pj) ∧
  (∀ i ∈ st.root, ∃ it, sorted.get? i = some it ∧ parentPathOf it.path = "") ∧
  (∀ pr ∈ st.child, ∃ itp itc, sorted.get? (Prod.fst pr) = some itp ∧
      itp.type = .tree ∧ sorted.get? (Prod.snd pr) = some itc ∧
      itp.path = parentPathOf itc.path)

/-- Each loop iteration preserves the invariant. -/
theorem buildStep_inv (sorted : List GitHubTreeItem) (st : TreeBuildState)
    (i : Nat) (h : TreeInv sorted st) : TreeInv sorted (buildStep sorted st i) := by
  obtain ⟨hmap, hroot, hchild⟩ := h
  unfold buildStep
  cases hget : sorted.get? i with
  | none => exact ⟨hmap, hroot, hchild⟩
  | some it =>
    simp only
    have hmap' : ∀ pj ∈ (it.path, i) :: st.nmap,
        ∃ it', sorted.get? (Prod.snd pj) = some it' ∧ it'.path = Prod.fst pj := by
      intro pj hpj
      cases hpj with
      | head => exact ⟨it, hget, rfl⟩
      | tail _ hmem => exact hmap pj hmem
    by_cases hpp : parentPathOf it.path = ""
    · simp only [hpp, if_pos rfl]
      refine ⟨hmap', ?_, hchild⟩
      intro r hr
      rcases List.mem_append.mp hr with hold | hnew
      · exact hroot r hold
      · have : r = i := by simpa using hnew
        subst this
        exact ⟨it, hget, hpp⟩
    · rw [if_neg hpp]
      cases hlk : alookup (parentPathOf it.path) ((it.path, i) :: st.nmap) with
      | none => exact ⟨hmap', hroot, hchild⟩
      | some j =>
        simp only
        by_cases htree : treeAt sorted j
        · rw [if_pos htree]
          refine ⟨hmap', hroot, ?_⟩
          intro pr hpr
          rcases List.mem_append.mp hpr with hold | hnew
          · exact hchild pr hold
          · have hpri : pr = (j, i) := by simpa using hnew
            subst hpri
            have hjmem := alookup_mem _ _ _ hlk
            obtain ⟨itp, hjget, hjpath⟩ := hmap' _ hjmem
            have : ∃ itj, sorted.get? j = some itj ∧ itj.type = .tree := by
              unfold treeAt at htree
              cases hj : sorted.get? j with
              | none => rw [hj] at htree; simp at htree
              | some itj =>
                rw [hj] at htree
                refine ⟨itj, rfl, ?_⟩
                simpa using htree
            obtain ⟨itj, hjget', hjtype⟩ := this
            rw [hjget'] at hjget
            have heq : itj = itp := Option.some.inj hjget
            subst heq
            exact ⟨itj, it, hjget', hjtype, hget, hjpath⟩
        · rw [if_neg htree]
          exact ⟨hmap', hroot, hchild⟩

/-- A predicate preserved by every step holds of a left fold. -/
theorem foldl_preserves {σ : Type} (P : σ → Prop) (f : σ → Nat → σ)
    (hf : ∀ s i, P s → P (f s i)) :
    ∀ (l : List Nat) (s : σ), P s → P (l.foldl f s) := by
  intro l
  induction l with
  | nil => intro s hs; exact hs
  | cons a t ih => intro s hs; exact ih (f s a) (hf s a hs)

/-- The invariant holds of the final loop state. -/
theorem buildState_inv (sorted : List GitHubTreeItem) :
    TreeInv sorted (buildState sorted) := by
  unfold buildState
  have hstart : TreeInv sorted ⟨[], [], []⟩ := by
    refine ⟨?_, ?_, ?_⟩ <;> intro x hx <;> simp at hx
  exact foldl_preserves (TreeInv sorted) (buildStep sorted)
    (buildStep_inv sorted) (List.range sorted.length) _ hstart

/-! ## Claim theorems -/

/-- C1 (counterexample): with two configured credentials, an all-429
upstream, and the process-wide index starting at 1, `sendToGroq` attempts
only one credential (not two) before failing with the exhausted error, so
the attempt count does depend on the starting value of
`currentApiKeyIndex`. -/
theorem sendToGroq_attempt_count_cex :
    (sendToGroq ["a", "b"] (fun _ => GroqFetch.resp 429 none) ⟨1, false⟩).2.2 =
      ["b"] ∧
    ¬((sendToGroq ["a", "b"] (fun _ => GroqFetch.resp 429 none)
        ⟨1, false⟩).2.2.length = 2) ∧
    (sendToGroq ["a", "b"] (fun _ => GroqFetch.resp 429 none) ⟨1, false⟩).1.error =
      some exhaustedMsg := by
  decide

/-- C1 (amended): with N > 0 configured credentials all returning 429 and
the call starting at index k < N, `sendToGroq` attempts exactly the
credentials from position k to N-1, one request each (N - k attempts, and
exactly N when k = 0), then fails with the all-keys-exhausted error. -/
theorem sendToGroq_all429_drop (keys : List String) (oracle : Nat → GroqFetch)
    (k : Nat) (e : Bool) (hk : k < keys.length) (hne : ∀ s ∈ keys, s ≠ "")
    (h429 : ∀ n, ∃ c, oracle n = GroqFetch.resp 429 c) :
    sendToGroq keys oracle ⟨k, e⟩ =
      (⟨false, none, some exhaustedMsg⟩, ⟨0, true⟩, keys.drop k) ∧
    (keys.drop k).length = keys.length - k := by
  constructor
  · unfold sendToGroq
    exact attemptRequest_all429 keys oracle hne h429 (keys.length + 1) 0 k hk
      (by omega)
  · simp

/-- C1 witness: two keys, all-429, starting at index 0 — both keys are
attempted and the call ends exhausted. -/
theorem sendToGroq_all429_drop_witness :
    (sendToGroq ["a", "b"] (fun _ => GroqFetch.resp 429 none) ⟨0, false⟩ =
      (⟨false, none, some exhaustedMsg⟩, ⟨0, true⟩, (["a", "b"]).drop 0)) ∧
    ((["a", "b"]).drop 0).length = (["a", "b"]).length - 0 :=
  sendToGroq_all429_drop ["a", "b"] (fun _ => GroqFetch.resp 429 none) 0 false
    (by decide) (by decide) (fun _ => ⟨none, rfl⟩)

/-- C8: on a non-2xx, non-429 upstream status, `sendToGroq` fails with the
status-carrying error after a single request and leaves
`currentApiKeyIndex` unchanged. -/
theorem sendToGroq_non429_keeps_index (keys : List String)
    (oracle : Nat → GroqFetch) (k : Nat) (e : Bool) (status : Nat)
    (c : Option String) (hk : k < keys.length) (hne : ∀ s ∈ keys, s ≠ "")
    (hor : oracle 0 = GroqFetch.resp status c)
    (hnok : respOk status = false) (h429 : status ≠ 429) :
    sendToGroq keys oracle ⟨k, e⟩ =
      (⟨false, none, some ("Groq API error: " ++ toString status)⟩,
        ⟨k, false⟩, [keys.getD k ""]) := by
  have hkey : keys.getD k "" ∈ keys := by
    rw [List.getD_eq_getElem keys "" hk]
    exact List.getElem_mem hk
  have hkeyne : ¬keys.getD k "" = "" := hne _ hkey
  have hlen0 : ¬keys.length = 0 := by omega
  have hidx : ¬k ≥ keys.length := by omega
  unfold sendToGroq
  simp only [attemptRequest, getCurrentApiKey, hlen0, if_false, if_neg hidx,
    hkeyne, hor, h429, hnok]
  simp

/-- C8 witness: a 500 from the upstream with two keys and index 1 fails
with the 500-carrying error and keeps the index at 1. -/
theorem sendToGroq_non429_keeps_index_witness :
    sendToGroq ["a", "b"] (fun _ => GroqFetch.resp 500 none) ⟨1, true⟩ =
      (⟨false, none, some ("Groq API error: " ++ toString 500)⟩,
        ⟨1, false⟩, [(["a", "b"]).getD 1 ""]) :=
  sendToGroq_non429_keeps_index ["a", "b"] (fun _ => GroqFetch.resp 500 none)
    1 true 500 none (by decide) (by decide) rfl (by decide) (by decide)

/-- The full transport round trip of the content route text branch:
base64-decode, decode as UTF-8 with replacement, re-encode. -/
def b64RoundTrip (s : String) : String :=
  b64Encode (utf8Normalize (b64DecodeBytes s))

/-- C5 (counterexample): the payload "QQ" is accepted by the text branch
(it decodes to the byte 0x41), but decoding then re-encoding yields
"QQ==", not the original payload, so the round trip is not the identity
on every accepted payload. -/
theorem b64RoundTrip_cex : b64RoundTrip "QQ" = "QQ==" ∧ b64RoundTrip "QQ" ≠ "QQ" := by
  decide

/-- C5 (amended): for canonical base64 payloads (exact encoder outputs of
a byte list) whose decoded bytes survive UTF-8 decoding unchanged, the
decode-then-re-encode round trip reproduces the original payload. -/
theorem b64RoundTrip_canonical (bs : List Nat) (hb : ∀ b ∈ bs, b < 256)
    (hutf : utf8Normalize bs = bs) :
    b64RoundTrip (b64Encode bs) = b64Encode bs := by
  unfold b64RoundTrip
  rw [b64DecodeBytes_encode bs hb, hutf]

/-- C5 witness: the bytes of "Hello" round-trip through the transport
encoding. -/
theorem b64RoundTrip_canonical_witness :
    b64RoundTrip (b64Encode [72, 101, 108, 108, 111]) =
      b64Encode [72, 101, 108, 108, 111] :=
  b64RoundTrip_canonical [72, 101, 108, 108, 111] (by decide) (by decide)

/-- C6: when the chapter id maps to a (non-empty) cached text,
`generateChapterContent` issues no generate-content request, displays
exactly the cached text, and leaves the cache unchanged. -/
theorem generateChapterContent_cached (cache : List (String × String))
    (chapter : Chapter) (fetchResult : Option String) (v : String)
    (hv : cache.lookup chapter.id = some v) (hne : v ≠ "") :
    generateChapterContent cache chapter fetchResult =
      (⟨chapter.id, some v, false, none⟩, cache, 0) := by
  unfold generateChapterContent cacheHit
  rw [hv]
  simp [hne]

/-- C6 witness: a cached chapter is served from the cache. -/
theorem generateChapterContent_cached_witness :
    generateChapterContent [("c1", "cached text")] ⟨"c1", "T", none⟩
      (some "fresh") =
      (⟨"c1", some "cached text", false, none⟩, [("c1", "cached text")], 0) :=
  generateChapterContent_cached [("c1", "cached text")] ⟨"c1", "T", none⟩
    (some "fresh") "cached text" (by decide) (by decide)

/-- C2 (counterexample): for path "README" the successful content
response carries extension "readme" (the whole lowercased filename), not
the empty string. -/
theorem contentPOST_readme_extension_cex :
    (contentPOST
      (some ⟨"https://github.com/octocat/Hello-World",
        UrlParse.ok "github.com" "/octocat/Hello-World"⟩)
      (some "README") none
      (200, ⟨"file", "README", "README", 5, "sha1", "SGVsbG8="⟩)).1.extension =
      some "readme" ∧ ("readme" : String) ≠ "" := by
  decide

/-- C2 (amended): for a non-empty path containing no dot, the successful
text response carries extension equal to the lowercased path itself
(provided that token is not one of the media extensions), with
isMedia false and the decoded content. -/
theorem contentPOST_no_dot (u : UrlString) (p : String)
    (branch : Option String) (status : Nat) (data : ContentData)
    (hurl : truthyUrl (some u) = true)
    (hparse : (parseGitHubUrl u).isSome = true)
    (hp : p ≠ "")
    (hnodot : p.data.contains '.' = false)
    (hok : respOk status = true)
    (hfile : data.ctype = "file")
    (hnotmedia : (imageExtensions ++ videoExtensions ++
      pdfExtensions).contains (jsToLower p) = false) :
    (contentPOST (some u) (some p) branch (status, data)).1.status = 200 ∧
    (contentPOST (some u) (some p) branch (status, data)).1.extension =
      some (jsToLower p) ∧
    (contentPOST (some u) (some p) branch (status, data)).1.isMedia =
      some false ∧
    (contentPOST (some u) (some p) branch (status, data)).1.content =
      some (utf8Normalize (b64DecodeBytes data.content)) := by
  obtain ⟨pr, hpr⟩ := Option.isSome_iff_exists.mp hparse
  obtain ⟨owner, repo⟩ := pr
  have hext : jsExtension p = jsToLower p := jsExtension_no_dot p hnodot
  have hmedia := hnotmedia
  simp only [List.contains, List.elem_eq_mem, List.mem_append, decide_eq_false_iff_not,
    not_or] at hmedia
  obtain ⟨⟨himg, hvid⟩, hpdf⟩ := hmedia
  unfold contentPOST
  simp only [Option.getD_some]
  rw [hpr]
  simp [hurl, truthyStr, hp, hok, hfile, hext, himg, hvid, hpdf]

/-- C2 witness: the README scenario through the amended statement. -/
theorem contentPOST_no_dot_witness :
    (contentPOST
      (some ⟨"https://github.com/octocat/Hello-World",
        UrlParse.ok "github.com" "/octocat/Hello-World"⟩)
      (some "README") none
      (200, ⟨"file", "README", "README", 5, "sha1", "SGVsbG8="⟩)).1.status =
        200 ∧
    (contentPOST
      (some ⟨"https://github.com/octocat/Hello-World",
        UrlParse.ok "github.com" "/octocat/Hello-World"⟩)
      (some "README") none
      (200, ⟨"file", "README", "README", 5, "sha1", "SGVsbG8="⟩)).1.extension =
        some (jsToLower "README") ∧
    (contentPOST
      (some ⟨"https://github.com/octocat/Hello-World",
        UrlParse.ok "github.com" "/octocat/Hello-World"⟩)
      (some "README") none
      (200, ⟨"file", "README", "README", 5, "sha1", "SGVsbG8="⟩)).1.isMedia =
        some false ∧
    (contentPOST
      (some ⟨"https://github.com/octocat/Hello-World",
        UrlParse.ok "github.com" "/octocat/Hello-World"⟩)
      (some "README") none
      (200, ⟨"file", "README", "README", 5, "sha1", "SGVsbG8="⟩)).1.content =
        some (utf8Normalize (b64DecodeBytes "SGVsbG8=")) :=
  contentPOST_no_dot
    ⟨"https://github.com/octocat/Hello-World",
      UrlParse.ok "github.com" "/octocat/Hello-World"⟩
    "README" none 200 ⟨"file", "README", "README", 5, "sha1", "SGVsbG8="⟩
    (by decide) (by decide) (by decide) (by decide) (by decide) rfl (by decide)

/-- The three-entry flat listing of the C3 scenario. -/
def c3Items : List GitHubTreeItem :=
  [⟨"a/b.txt", .blob, "sha-b", some 3⟩, ⟨"a", .tree, "sha-a", none⟩,
   ⟨"c.txt", .blob, "sha-c", some 7⟩]

/-- C3: on the listing (a/b.txt, a, c.txt), `buildFileTree` puts the
folder a and the file c.txt at the root with b.txt one level under a; and
the sort comparator orders tree entries strictly before non-tree entries
of the same path depth. -/
theorem buildFileTree_folders_first :
    buildFileTree c3Items =
      [FileNode.mk "sha-a" "a" .folder "a"
        (some [FileNode.mk "sha-b" "b.txt" .file "a/b.txt" none]),
       FileNode.mk "sha-c" "c.txt" .file "c.txt" none] ∧
    (∀ a b : GitHubTreeItem, pathDepth a.path = pathDepth b.path →
      a.type = .tree → b.type ≠ .tree → itemCmp a b < 0) := by
  constructor
  · rfl
  · intro a b hd ha hb
    simp [itemCmp, hd, ha, hb]

/-- C3 witness: the comparator puts the folder a before the file c.txt at
depth 1. -/
theorem buildFileTree_folders_first_witness :
    itemCmp ⟨"a", .tree, "sha-a", none⟩ ⟨"c.txt", .blob, "sha-c", some 7⟩ < 0 :=
  buildFileTree_folders_first.2 ⟨"a", .tree, "sha-a", none⟩
    ⟨"c.txt", .blob, "sha-c", some 7⟩ (by decide) rfl (by decide)

/-- C4: for a request URL whose hostname does not contain "github.com",
or whose pathname has fewer than two non-empty segments, both the tree
and the content endpoints answer 400 "Invalid GitHub URL" with no
outbound request. -/
theorem invalid_github_url_no_fetch (u : UrlString) (host pathname : String)
    (tenv : TreeEnv) (cenv : Nat × ContentData) (fpath branch : Option String)
    (hraw : u.raw ≠ "") (hparse : u.parsed = UrlParse.ok host pathname)
    (hfpath : truthyStr fpath = true)
    (hbad : jsIncludes host "github.com" = false ∨
      ((jsSplit '/' pathname).filter (fun s => s ≠ "")).length < 2) :
    treePOST (some u) tenv = (treeErr 400 "Invalid GitHub URL", []) ∧
    contentPOST (some u) fpath branch cenv =
      (contentErr 400 "Invalid GitHub URL", 0) := by
  have hparse0 : parseGitHubUrl u = none := by
    unfold parseGitHubUrl
    rw [hparse]
    rcases hbad with hh | hp
    · simp [hh]
    · by_cases hinc : jsIncludes host "github.com"
      · simp only [hinc, Bool.not_true, Bool.false_eq_true, if_false]
        rw [if_pos hp]
      · simp [hinc]
  constructor
  · unfold treePOST
    simp [truthyUrl, hraw, hparse0]
  · unfold contentPOST
    simp [truthyUrl, hraw, hfpath, hparse0]

/-- C4 witness: a gitlab.com URL is rejected by both endpoints without
any outbound request. -/
theorem invalid_github_url_no_fetch_witness :
    treePOST (some ⟨"https://gitlab.com/o/r", UrlParse.ok "gitlab.com" "/o/r"⟩)
      ⟨(200, ⟨"main"⟩), (200, ⟨"t"⟩), (200, ⟨[], false⟩)⟩ =
      (treeErr 400 "Invalid GitHub URL", []) ∧
    contentPOST
      (some ⟨"https://gitlab.com/o/r", UrlParse.ok "gitlab.com" "/o/r"⟩)
      (some "README") none (200, ⟨"file", "n", "p", 1, "s", ""⟩) =
      (contentErr 400 "Invalid GitHub URL", 0) :=
  invalid_github_url_no_fetch
    ⟨"https://gitlab.com/o/r", UrlParse.ok "gitlab.com" "/o/r"⟩
    "gitlab.com" "/o/r" ⟨(200, ⟨"main"⟩), (200, ⟨"t"⟩), (200, ⟨[], false⟩)⟩
    (200, ⟨"file", "n", "p", 1, "s", ""⟩) (some "README") none
    (by decide) rfl (by decide) (Or.inl (by decide))

/-- C7: a 404 from the upstream repository-metadata request makes the
tree endpoint answer 404 "Repository not found", not a 500. -/
theorem treePOST_repo_not_found (u : UrlString) (env : TreeEnv)
    (hurl : truthyUrl (some u) = true)
    (hparse : (parseGitHubUrl u).isSome = true)
    (h404 : env.repoMeta.1 = 404) :
    (treePOST (some u) env).1.status = 404 ∧
    (treePOST (some u) env).1.error = some "Repository not found" := by
  obtain ⟨pr, hpr⟩ := Option.isSome_iff_exists.mp hparse
  obtain ⟨owner, repo⟩ := pr
  unfold treePOST
  rcases henv : env.repoMeta with ⟨rs, rd⟩
  have hrs : rs = 404 := by rw [henv] at h404; exact h404
  subst hrs
  simp [hurl, hpr, henv, respOk, treeErr]

/-- C7 witness: the 404 scenario at a concrete URL and environment. -/
theorem treePOST_repo_not_found_witness :
    (treePOST
      (some ⟨"https://github.com/o/r", UrlParse.ok "github.com" "/o/r"⟩)
      ⟨(404, ⟨"main"⟩), (200, ⟨"t"⟩), (200, ⟨[], false⟩)⟩).1.status = 404 ∧
    (treePOST
      (some ⟨"https://github.com/o/r", UrlParse.ok "github.com" "/o/r"⟩)
      ⟨(404, ⟨"main"⟩), (200, ⟨"t"⟩), (200, ⟨[], false⟩)⟩).1.error =
      some "Repository not found" :=
  treePOST_repo_not_found
    ⟨"https://github.com/o/r", UrlParse.ok "github.com" "/o/r"⟩
    ⟨(404, ⟨"main"⟩), (200, ⟨"t"⟩), (200, ⟨[], false⟩)⟩
    (by decide) (by decide) rfl

/-- C9: an entry whose parent path is non-empty but names no tree entry
of the input list is attached nowhere by the `buildFileTree` loop: its
index reaches neither the root list nor any attachment pair, and the
function still returns normally. -/
theorem buildFileTree_orphan_omitted (items : List GitHubTreeItem) (i : Nat)
    (it : GitHubTreeItem)
    (hget : (sortCmp itemCmp items).get? i = some it)
    (hpp : parentPathOf it.path ≠ "")
    (hnop : ∀ x ∈ items, ¬(x.type = GitType.tree ∧
      x.path = parentPathOf it.path)) :
    i ∉ (buildState (sortCmp itemCmp items)).root ∧
    ∀ pr ∈ (buildState (sortCmp itemCmp items)).child, Prod.snd pr ≠ i := by
  obtain ⟨hmap, hroot, hchild⟩ := buildState_inv (sortCmp itemCmp items)
  constructor
  · intro hmem
    obtain ⟨it', hget', hpp'⟩ := hroot i hmem
    rw [hget] at hget'
    have heq : it = it' := Option.some.inj hget'
    rw [← heq] at hpp'
    exact hpp hpp'
  · intro pr hpr heq
    obtain ⟨itp, itc, hjget, hjtype, hcget, hjpath⟩ := hchild pr hpr
    rw [heq, hget] at hcget
    have heqc : itc = it := (Option.some.inj hcget).symm
    have hmemp : itp ∈ sortCmp itemCmp items := List.get?_mem hjget
    have hmemi : itp ∈ items := (mem_sortCmp itemCmp itp items).mp hmemp
    exact hnop itp hmemi ⟨hjtype, by rw [hjpath, heqc]⟩

/-- C9 witness: the single orphan entry x/y.txt (parent x absent) is
neither a root nor attached to any parent. -/
theorem buildFileTree_orphan_omitted_witness :
    0 ∉ (buildState (sortCmp itemCmp
      [⟨"x/y.txt", GitType.blob, "s9", none⟩])).root ∧
    ∀ pr ∈ (buildState (sortCmp itemCmp
      [⟨"x/y.txt", GitType.blob, "s9", none⟩])).child, Prod.snd pr ≠ 0 :=
  buildFileTree_orphan_omitted [⟨"x/y.txt", GitType.blob, "s9", none⟩] 0
    ⟨"x/y.txt", GitType.blob, "s9", none⟩ rfl (by decide) (by decide)

/-- C10 (counterexample): an empty-string repoName is present in the body
(not missing), yet the generate-content endpoint answers 400, so "400 iff
a field is missing" fails in the only-if direction. -/
theorem generateContentPOST_400_cex :
    (generateContentPOST (some "") (some ⟨"c1", "T", none⟩) none
      ⟨true, some "ok", none⟩).1.status = 400 ∧
    (some "" : Option String) ≠ none ∧
    (some (⟨"c1", "T", none⟩ : Chapter) : Option Chapter) ≠ none := by
  decide

/-- C10 (amended): the endpoint answers 400 exactly when repoName is
falsy (missing or empty) or chapter is missing; a missing or empty files
array is accepted, the prompt context falls back to the fixed text, and
generation proceeds normally on LLM success. -/
theorem generateContentPOST_400_iff (repoName : Option String)
    (chapter : Option Chapter) (files : Option (List FileInfo))
    (llm : GroqResponse) :
    ((generateContentPOST repoName chapter files llm).1.status = 400 ↔
      truthyStr repoName = false ∨ chapter = none) ∧
    (truthyStr repoName = true → ∀ ch, chapter = some ch →
      (files = none ∨ files = some []) →
      fileContext files = noFilesMsg ∧
      (llm.success = true →
        (generateContentPOST repoName chapter files llm).1.status = 200 ∧
        (generateContentPOST repoName chapter files llm).1.content =
          llm.content ∧
        (generateContentPOST repoName chapter files llm).1.chapterId =
          some ch.id ∧
        (generateContentPOST repoName chapter files llm).2 =
          [genPrompt (repoName.getD "") ch files])) := by
  constructor
  · unfold generateContentPOST
    cases htr : truthyStr repoName with
    | false =>
      cases chapter <;> simp [truthyChapter]
    | true =>
      cases chapter with
      | none => simp [truthyChapter]
      | some ch =>
        simp only [truthyChapter, Bool.not_true, Bool.false_or,
          Bool.or_false]
        cases hs : llm.success <;> simp
  · intro htr ch hch hfl
    subst hch
    constructor
    · rcases hfl with h | h <;> subst h <;> rfl
    · intro hs
      unfold generateContentPOST
      simp [htr, truthyChapter, hs]

/-- C10 witness: a well-formed body with no files array generates with
the fallback context. -/
theorem generateContentPOST_400_iff_witness :
    fileContext none = noFilesMsg ∧
    (generateContentPOST (some "repo") (some ⟨"c1", "T", none⟩) none
      ⟨true, some "body", none⟩).1.status = 200 ∧
    (generateContentPOST (some "repo") (some ⟨"c1", "T", none⟩) none
      ⟨true, some "body", none⟩).1.content = some "body" := by
  have h := (generateContentPOST_400_iff (some "repo")
    (some ⟨"c1", "T", none⟩) none ⟨true, some "body", none⟩).2
    (by decide) ⟨"c1", "T", none⟩ rfl (Or.inl rfl)
  exact ⟨h.1, (h.2 rfl).1, (h.2 rfl).2.1⟩

end Codoc
